import Mathlib

/-!
Shallow embedding of `basebot.py` (a bot library for the euphoria.io chat
protocol) together with proofs about its roster (`UserList`), threaded log
(`MessageTree`), mention scanning, time-delta formatting, and the endpoint
dispatch pipeline (`HeimEndpoint.handle` / `LoggingEndpoint`).

Python data is embedded as follows: `str` becomes `String` (the module is
declared `coding: ascii`), numeric time deltas become `ℚ` (the inputs
examined are exactly representable binary floats, on which Python float
arithmetic is exact), dicts become association lists preserving insertion
order, and raised exceptions become `Option`/`Except` results.
-/

namespace Basebot

/-- Characters matched by the regex class `\s` on ASCII text (the module is
declared `coding: ascii`); used by `WHITESPACE_RE` and inside `MENTION_RE`. -/
def pyIsSpace (c : Char) : Bool :=
  c = ' ' || c = '\t' || c = '\n' || c = '\r' || c = '\x0b' || c = '\x0c'

/-- Characters of `_MENTION_DELIMITER`, the class `[,.!?;&<\'"\s]`. -/
def isMentionDelim (c : Char) : Bool :=
  c = ',' || c = '.' || c = '!' || c = '?' || c = ';' || c = '&' ||
  c = '<' || c = '\'' || c = '"' || pyIsSpace c

/-- Embedding of `normalize_nick`: remove all whitespace and lower-case. -/
def normalize_nick (nick : String) : String :=
  String.mk ((nick.toList.filter (fun c => !pyIsSpace c)).map Char.toLower)

/-- Length taken by the lazy group `@(\S+?)` of `MENTION_RE` followed by the
lookahead `(?=[,.!?;&<\'"\s]|$)`: the smallest `k ≥ 1` such that the first
`k` characters are non-whitespace and the character after them (if any) is a
mention delimiter. Returns `none` when the regex cannot match here. -/
def lazyLen : List Char → Option Nat
  | [] => none
  | c :: rest =>
    if pyIsSpace c then none
    else
      match rest with
      | [] => some 1
      | d :: _ =>
        if isMentionDelim d then some 1
        else
          match lazyLen rest with
          | some n => some (n + 1)
          | none => none

/-- The zero-width prefix `(?:^|(?<=[,.!?;&<\'"\s]))` of `MENTION_RE`:
position `p` is either the start of the string or preceded by a delimiter. -/
def prevIsDelim (s : List Char) (p : Nat) : Bool :=
  match p with
  | 0 => true
  | q + 1 =>
    match s.get? q with
    | some c => isMentionDelim c
    | none => false

/-- Attempt to match `MENTION_RE` at position `p` of `s`; returns the end
position of the match (one past the last matched character). -/
def matchAt (s : List Char) (p : Nat) : Option Nat :=
  if s.get? p == some '@' && prevIsDelim s p then
    match lazyLen (s.drop (p + 1)) with
    | some k => some (p + 1 + k)
    | none => none
  else none

/-- Leftmost-match search loop of `MENTION_RE.search(line, offset)`; the fuel
equals the number of remaining candidate positions. -/
def searchLoop (s : List Char) : Nat → Nat → Option (Nat × Nat)
  | 0, _ => none
  | fuel + 1, p =>
    if p < s.length then
      match matchAt s p with
      | some e => some (p, e)
      | none => searchLoop s fuel (p + 1)
    else none

/-- Embedding of `MENTION_RE.search(line, offset)`: the leftmost match at a
position `≥ p`, as a `(start, end)` pair. -/
def searchFrom (s : List Char) (p : Nat) : Option (Nat × Nat) :=
  searchLoop s (s.length - p) p

/-- Loop body of `scan_mentions`; each iteration resumes at the end of the
previous match, which advances by at least two positions, so fuel
`s.length + 1` is never exhausted before `offset < l` fails. -/
def scanLoop (s : List Char) : Nat → Nat → List (Nat × String)
  | 0, _ => []
  | fuel + 1, offset =>
    if offset < s.length then
      match searchFrom s offset with
      | none => []
      | some (st, en) =>
        (st, String.mk ((s.drop st).take (en - st))) :: scanLoop s fuel en
    else []

/-- Embedding of `scan_mentions(line)`: the `@`-mentions of `line`, in
order, as `(offset, token)` pairs (a `Token` is a string carrying its
offset in the scanned line; the token includes the leading `@`). -/
def scan_mentions (line : String) : List (Nat × String) :=
  scanLoop line.toList (line.length + 1) 0

/-- Python `int()` truncation toward zero on an exact rational. -/
def pyTrunc (q : ℚ) : Int := q.num / (q.den : Int)

/-- Python floor division `q // n` (toward negative infinity). -/
def qFloorDiv (q n : ℚ) : Int := Int.fdiv (q / n).num ((q / n).den : Int)

/-- Whether a Python float value is integral (`delta % 1 == 0`). -/
def qIsInt (q : ℚ) : Bool := q.den == 1

/-- Python `round(x, 3)`: round half to even at three decimal places (exact
on the rationals considered here). -/
def pyRound3 (q : ℚ) : ℚ :=
  let x := q * 1000
  let f : Int := Int.fdiv x.num (x.den : Int)
  let r := x - (f : ℚ)
  let n : Int :=
    if r < 1 / 2 then f
    else if 1 / 2 < r then f + 1
    else if f % 2 = 0 then f else f + 1
  (n : ℚ) / 1000

/-- Drop trailing `'0'` characters. -/
def stripRightZeros (s : List Char) : List Char :=
  (s.reverse.dropWhile (fun c => c = '0')).reverse

/-- Three-digit zero-padded decimal rendering of `n < 1000`. -/
def pad3 (n : Nat) : String :=
  if n < 10 then "00" ++ toString n
  else if n < 100 then "0" ++ toString n
  else toString n

/-- Rendering of `'%s' % x` for a nonnegative Python float `x` with at most
three decimal places (the only values reaching this formatting path in
`format_delta`): integral part, a dot, and the fractional digits without
trailing zeros (`"30.5"`), or `".0"` when the value is integral. -/
def renderFloat (q : ℚ) : String :=
  let z : Int := Int.fdiv (q * 1000).num ((q * 1000).den : Int)
  let i : Int := Int.fdiv z 1000
  let f : Nat := (z - 1000 * i).toNat
  if f = 0 then toString i ++ ".0"
  else toString i ++ "." ++ String.mk (stripRightZeros (pad3 f).toList)

/-- Embedding of `format_delta(delta, fractions)`: format a time difference
in seconds as `"[- ][Xd ][Xh ][Xm ][X[.FFF]s]"`, with `"0s"` for zero. The
sequential list appends and destructive updates of the Python body are
linearized into one value per program point. -/
def format_delta (delta : ℚ) (fractions : Bool) : String :=
  let delta0 := if fractions then delta else (pyTrunc delta : ℚ)
  if delta0 = 0 then "0s"
  else
    let sign : List String := if delta0 < 0 then ["-"] else []
    let a1 : ℚ := if delta0 < 0 then -delta0 else delta0
    let dpart : List String :=
      if a1 ≥ 86400 then [toString (qFloorDiv a1 86400) ++ "d"] else []
    let a2 : ℚ :=
      if a1 ≥ 86400 then a1 - 86400 * (qFloorDiv a1 86400 : ℚ) else a1
    let hpart : List String :=
      if a2 ≥ 3600 then [toString (qFloorDiv a2 3600) ++ "h"] else []
    let a3 : ℚ :=
      if a2 ≥ 3600 then a2 - 3600 * (qFloorDiv a2 3600 : ℚ) else a2
    let mpart : List String :=
      if a3 ≥ 60 then [toString (qFloorDiv a3 60) ++ "m"] else []
    let a4 : ℚ :=
      if a3 ≥ 60 then a3 - 60 * (qFloorDiv a3 60 : ℚ) else a3
    let spart : List String :=
      if a4 ≠ 0 then
        if ¬ qIsInt a4 then [renderFloat (pyRound3 a4) ++ "s"]
        else [toString (pyTrunc a4) ++ "s"]
      else []
    String.intercalate " " (sign ++ dpart ++ hpart ++ mpart ++ spart)

/-- Mutable state of a `Message` record as far as the mention caches are
concerned: the `content` field plus the private cache cells
`__mention_list` and `__mention_set` (both `None` until computed). The
remaining `Message` fields do not participate in mention scanning. -/
structure MessageCache where
  content : String
  mlist : Option (List (Nat × String))
  mset : Option (Finset String)
deriving DecidableEq

/-- Embedding of `Message.__init__`: both cache cells start as `None`. -/
def MessageCache.init (content : String) : MessageCache :=
  { content := content, mlist := none, mset := none }

/-- Embedding of `Message.__setitem__` writing the `content` field: the
write invalidates both caches. -/
def MessageCache.setContent (m : MessageCache) (c : String) : MessageCache :=
  { content := c, mlist := none, mset := none }

/-- Embedding of reading the `Message.mention_list` property: on a cache
miss the list is computed by `scan_mentions` and stored. Returns the value
together with the post-read state. -/
def MessageCache.mentionListRead (m : MessageCache) :
    List (Nat × String) × MessageCache :=
  match m.mlist with
  | some l => (l, m)
  | none =>
    let l := scan_mentions m.content
    (l, { m with mlist := some l })

/-- Embedding of reading the `Message.mention_set` property: on a cache miss
the set is built by iterating the *cached* `__mention_list` cell directly
(`frozenset(i[1:] for i in self.__mention_list)`); when that cell is still
`None` the iteration raises a `TypeError`, modelled as `none`. -/
def MessageCache.mentionSetRead (m : MessageCache) :
    Option (Finset String × MessageCache) :=
  match m.mset with
  | some s => some (s, m)
  | none =>
    match m.mlist with
    | none => none
    | some l =>
      let s : Finset String := (l.map (fun i => i.2.drop 1)).toFinset
      some (s, { m with mset := some s })

/-- Embedding of the `SessionView` record, with the record defaults
(`is_staff`/`is_manager` default to `False`) already applied; Python dict
equality on such records is structural equality. -/
structure SessionView where
  id : String
  name : String
  server_id : String
  server_era : String
  session_id : String
  is_staff : Bool := false
  is_manager : Bool := false
deriving DecidableEq, Repr

/-- Derived property `SessionView.norm_name`. -/
def SessionView.norm_name (v : SessionView) : String := normalize_nick v.name

/-- Python dict lookup `d[k]` on an insertion-ordered association list. -/
def lookupA {α : Type} (l : List (String × α)) (k : String) : Option α :=
  match l with
  | [] => none
  | (k', v) :: t => if k' = k then some v else lookupA t k

/-- Python `d.pop(k)`: the removed value and the remaining dict. -/
def popA {α : Type} (l : List (String × α)) (k : String) :
    Option (α × List (String × α)) :=
  match l with
  | [] => none
  | (k', v) :: t =>
    if k' = k then some (v, t)
    else
      match popA t k with
      | some (w, t') => some (w, (k', v) :: t')
      | none => none

/-- Python `d[k] = v`: replace in place if present, else append (dicts
preserve insertion order). -/
def setA {α : Type} (l : List (String × α)) (k : String) (v : α) :
    List (String × α) :=
  match l with
  | [] => [(k, v)]
  | (k', w) :: t => if k' = k then (k, v) :: t else (k', w) :: setA t k v

/-- Python `list.remove(a)`: drop the first element equal to `a`, or `none`
for the `ValueError` raised when no element matches. -/
def removeFirst {α : Type} [DecidableEq α] (l : List α) (a : α) :
    Option (List α) :=
  match l with
  | [] => none
  | b :: t =>
    if b = a then some t
    else
      match removeFirst t a with
      | some t' => some (b :: t')
      | none => none

/-- State of a `UserList` (the roster): the backing list `_list` and the
three indexes `_by_session_id`, `_by_agent_id` and `_by_name`. -/
structure UserList where
  list : List SessionView
  by_session_id : List (String × SessionView)
  by_agent_id : List (String × List SessionView)
  by_name : List (String × List SessionView)
deriving DecidableEq, Repr

/-- Embedding of `UserList.__init__`. -/
def UserList.empty : UserList :=
  { list := [], by_session_id := [], by_agent_id := [], by_name := [] }

/-- Python `d.get(k, [])` on a bucket index. -/
def getBucket (d : List (String × List SessionView)) (k : String) :
    List SessionView :=
  (lookupA d k).getD []

/-- The unconditional second half of the loop body of `UserList.add`:
append the view to the backing list, install it under its `session_id`, and
`setdefault`-append it to its agent-id and name buckets. -/
def UserList.appendView (u : UserList) (i : SessionView) : UserList :=
  { list := u.list ++ [i],
    by_session_id := setA u.by_session_id i.session_id i,
    by_agent_id := setA u.by_agent_id i.id (getBucket u.by_agent_id i.id ++ [i]),
    by_name := setA u.by_name i.name (getBucket u.by_name i.name ++ [i]) }

/-- One iteration of the loop in `UserList.add`: if a view with the same
`session_id` is present, first remove it from the backing list and from
every index (`KeyError`/`ValueError` escapes are modelled as `.error`),
then append the new view everywhere. -/
def UserList.addOne (u : UserList) (i : SessionView) : Except Unit UserList :=
  match popA u.by_session_id i.session_id with
  | none => .ok (u.appendView i)
  | some (orig, bsid') =>
    match removeFirst u.list orig with
    | none => .error ()
    | some l' =>
      match lookupA u.by_agent_id orig.id with
      | none => .error ()
      | some ab =>
        match removeFirst ab orig with
        | none => .error ()
        | some ab' =>
          match lookupA u.by_name orig.name with
          | none => .error ()
          | some nb =>
            match removeFirst nb orig with
            | none => .error ()
            | some nb' =>
              .ok (UserList.appendView
                { list := l', by_session_id := bsid',
                  by_agent_id := setA u.by_agent_id orig.id ab',
                  by_name := setA u.by_name orig.name nb' } i)

/-- Embedding of `UserList.add(*lst)` (an escaping exception aborts the
loop). -/
def UserList.add (u : UserList) : List SessionView → Except Unit UserList
  | [] => .ok u
  | i :: rest =>
    match u.addOne i with
    | .error x => .error x
    | .ok u1 => u1.add rest

/-- One iteration of the loop in `UserList.remove`: a missing `session_id`
is skipped (`KeyError` is caught); the agent-id bucket removal may raise an
uncaught `ValueError` (also when `.get` returned a fresh empty list), while
the name bucket removal swallows its `ValueError`. -/
def UserList.removeOne (u : UserList) (i : SessionView) : Except Unit UserList :=
  match popA u.by_session_id i.session_id with
  | none => .ok u
  | some (orig, bsid') =>
    match removeFirst u.list orig with
    | none => .error ()
    | some l' =>
      match lookupA u.by_agent_id orig.id with
      | none => .error ()
      | some ab =>
        match removeFirst ab orig with
        | none => .error ()
        | some ab' =>
          let nb :=
            match lookupA u.by_name orig.name with
            | none => u.by_name
            | some b =>
              match removeFirst b orig with
              | none => u.by_name
              | some b' => setA u.by_name orig.name b'
          .ok { list := l', by_session_id := bsid',
                by_agent_id := setA u.by_agent_id orig.id ab', by_name := nb }

/-- Embedding of `UserList.remove(*lst)`. -/
def UserList.remove (u : UserList) : List SessionView → Except Unit UserList
  | [] => .ok u
  | i :: rest =>
    match u.removeOne i with
    | .error x => .error x
    | .ok u1 => u1.remove rest

/-- Embedding of `UserList.clear`. -/
def UserList.clear (u : UserList) : UserList := UserList.empty

/-- Embedding of `UserList.remove_matching` for the pattern
`{server_id, server_era}` used by the partition network-event. -/
def UserList.removeMatchingShard (u : UserList) (sid era : String) :
    Except Unit UserList :=
  u.remove (u.list.filter (fun v => v.server_id = sid && v.server_era = era))

/-- Embedding of `UserList.for_session(id)` (the `KeyError` is `none`). -/
def UserList.for_session (u : UserList) (id : String) : Option SessionView :=
  lookupA u.by_session_id id

/-- Embedding of `UserList.for_agent(id)`. -/
def UserList.for_agent (u : UserList) (id : String) : List SessionView :=
  getBucket u.by_agent_id id

/-- Embedding of `UserList.for_name(name)`. -/
def UserList.for_name (u : UserList) (name : String) : List SessionView :=
  getBucket u.by_name name

/-- Effect on the roster of the `nick`-event branch of
`LoggingEndpoint.handle_early`: `usr = self.users.for_session(sid)` followed
by the in-place field write `usr.name = to`. The written `SessionView`
object is shared by reference between `_list` and every index bucket, so
every alias observes the new `name`, while all index *keys* stay as they
were. Fails (a `KeyError`) when the session is unknown. -/
def UserList.nickApply (u : UserList) (sid newName : String) : Option UserList :=
  match lookupA u.by_session_id sid with
  | none => none
  | some usr =>
    let ren : SessionView → SessionView :=
      fun v => if v = usr then { v with name := newName } else v
    some { list := u.list.map ren,
           by_session_id := u.by_session_id.map (fun p => (p.1, ren p.2)),
           by_agent_id := u.by_agent_id.map (fun p => (p.1, p.2.map ren)),
           by_name := u.by_name.map (fun p => (p.1, p.2.map ren)) }

/-- One roster mutation of the kind claim C1 quantifies over. -/
inductive RosterOp
  | addViews (lst : List SessionView)
  | removeViews (lst : List SessionView)
deriving DecidableEq, Repr

/-- Apply one roster operation. -/
def applyRosterOp (u : UserList) : RosterOp → Except Unit UserList
  | .addViews lst => u.add lst
  | .removeViews lst => u.remove lst

/-- Run a sequence of roster operations from the given state. -/
def runRosterOps (u : UserList) : List RosterOp → Except Unit UserList
  | [] => .ok u
  | op :: rest =>
    match applyRosterOp u op with
    | .error x => .error x
    | .ok u1 => runRosterOps u1 rest

/-- The C1 invariant. At most one entry per `session_id` exists (the
backing list carries pairwise distinct session ids, and the session index
is exactly the backing list keyed by `session_id`), and every bucket of
each secondary index holds exactly the entries whose field matches the
bucket key, in backing-list order — no orphaned and no duplicate index
entries (a key whose bucket would be empty may be absent or hold `[]`;
both read back as the empty entry list). -/
def RosterInv (u : UserList) : Prop :=
  (u.list.map (fun v => v.session_id)).Nodup ∧
  u.by_session_id = u.list.map (fun v => (v.session_id, v)) ∧
  (∀ k, getBucket u.by_agent_id k = u.list.filter (fun v => v.id == k)) ∧
  (∀ k, getBucket u.by_name k = u.list.filter (fun v => v.name == k))

/-- A message as the log and dispatch code see it: its `id` (a string,
ordered lexicographically as Python orders `str`), its optional `parent` id,
its `sender` session view, and its `content`; the remaining `Message` fields
are not inspected by the tree or dispatch logic. -/
structure Msg where
  id : String
  parent : Option String
  content : String
  sender : SessionView := { id := "", name := "", server_id := "",
                            server_era := "", session_id := "" }
deriving DecidableEq, Repr

/-- Python dict lookup keyed by `Option String` (the `parent` key of the
children index may be `None`). -/
def lookupP {α : Type} (l : List (Option String × α)) (k : Option String) :
    Option α :=
  match l with
  | [] => none
  | (k', v) :: t => if k' = k then some v else lookupP t k

/-- Python `d[k] = v` keyed by `Option String`. -/
def setP {α : Type} (l : List (Option String × α)) (k : Option String) (v : α) :
    List (Option String × α) :=
  match l with
  | [] => [(k, v)]
  | (k', w) :: t => if k' = k then (k, v) :: t else (k', w) :: setP t k v

/-- State of a `MessageTree`: `_messages` (id → latest message), `_children`
(parent id → list of child ids), and the `_earliest`/`_latest` trackers. -/
structure MessageTree where
  messages : List (String × Msg)
  children : List (Option String × List String)
  earliest : Option Msg
  latest : Option Msg
deriving DecidableEq, Repr

/-- Embedding of `MessageTree.__init__`. -/
def MessageTree.init : MessageTree :=
  { messages := [], children := [], earliest := none, latest := none }

/-- The loop body of `MessageTree.add` for one message: store the record
under its id, `setdefault` the parent bucket and append the id to it unless
already present, and update the earliest/latest trackers. -/
def MessageTree.addInsert (t : MessageTree) (msg : Msg) : MessageTree :=
  let c := (lookupP t.children msg.parent).getD []
  let c' := if msg.id ∈ c then c else c ++ [msg.id]
  { messages := setA t.messages msg.id msg,
    children := setP t.children msg.parent c',
    earliest :=
      match t.earliest with
      | none => some msg
      | some e => if e.id > msg.id then some msg else some e,
    latest :=
      match t.latest with
      | none => some msg
      | some l => if l.id ≤ msg.id then some msg else some l }

/-- One `l.sort()` call of the post-loop pass of `MessageTree.add`: sort
the child list of the given parent in place (Python `list.sort` on
distinct keys coincides with any stable sort; `insertionSort` carries the
ordering lemmas used below). -/
def MessageTree.sortStep (t : MessageTree) (p : Option String) : MessageTree :=
  match lookupP t.children p with
  | none => t
  | some c =>
    { t with children := setP t.children p (c.insertionSort (· ≤ ·)) }

/-- The post-loop pass of `MessageTree.add`: `l.sort()` every touched child
list (the `sorts` dict holds each touched list object exactly once; sorting
an already sorted list again is the identity, so folding over the raw touch
sequence is equivalent). -/
def MessageTree.sortTouched (t : MessageTree) (touched : List (Option String)) :
    MessageTree :=
  touched.foldl MessageTree.sortStep t

/-- Embedding of `MessageTree.add(*lst)`: insert every message, then sort
each touched child list. -/
def MessageTree.add (t : MessageTree) (lst : List Msg) : MessageTree :=
  (lst.foldl MessageTree.addInsert t).sortTouched (lst.map (fun m => m.parent))

/-- Embedding of `MessageTree.get(id)` (`KeyError` is `none`). -/
def MessageTree.get (t : MessageTree) (id : String) : Option Msg :=
  lookupA t.messages id

/-- Embedding of `MessageTree.list(parent)`: the messages stored under the
ids of the given parent's bucket, in bucket order. -/
def MessageTree.listChildren (t : MessageTree) (parent : Option String) :
    List (Option Msg) :=
  ((lookupP t.children parent).getD []).map (fun i => lookupA t.messages i)

/-- Embedding of `MessageTree.clear`. -/
def MessageTree.clear (t : MessageTree) : MessageTree := MessageTree.init

/-- The number of child buckets whose list mentions the given id. -/
def MessageTree.bucketsContaining (t : MessageTree) (id : String) : Nat :=
  (t.children.filter (fun pr => id ∈ pr.2)).length

/-- Python `t.endswith(suffix)` on ASCII strings, via the character list
view (Lean's byte-position based `String.endsWith` does not reduce well in
proofs). -/
def strEndsWith (s suffix : String) : Bool :=
  suffix.toList.isSuffixOf s.toList

/-- Decoded payload (`data` field) shapes that the dispatch pipeline
inspects, one constructor per structure `_postprocess_packet` promotes,
plus the raw payloads of `nick`/`network`/`nick-reply` packets that are
read without promotion. `otherD` stands for any other JSON value. -/
inductive PData
  | viewsD (l : List SessionView)
  | viewD (v : SessionView)
  | msgD (m : Msg)
  | logD (log : List Msg)
  | snapshotD (listing : List SessionView) (log : List Msg)
  | helloD (session : SessionView)
  | nickD (session_id fromName toName : String)
  | networkD (ntype server_id server_era : String)
  | nickReplyD (toName : String)
  | otherD
deriving DecidableEq, Repr

/-- An inbound frame as decoded from JSON: the top-level keys the dispatch
code reads. Any of them may be missing. -/
structure RawPacket where
  type : Option String := none
  id : Option String := none
  data : Option PData := none
  reason : Option String := none
  time : Option Int := none
deriving DecidableEq, Repr

/-- The message types whose payload `_postprocess_packet` promotes to a
single `Message`. -/
def msgPromoteTypes : List String :=
  ["get-message-reply", "send-reply", "edit-message-reply",
   "edit-message-event", "send-event"]

/-- Whether `_postprocess_packet` succeeds on the frame: it raises a
`KeyError` when `type` is missing or a promoted payload lacks its required
structure; `handle` catches that and continues with the frame as a plain,
unwrapped dict. -/
def postprocessOk (p : RawPacket) : Bool :=
  match p.type with
  | none => false
  | some tp =>
    if tp ∈ msgPromoteTypes then
      match p.data with | some (.msgD _) => true | _ => false
    else if tp = "log-reply" then
      match p.data with | some (.logD _) => true | _ => false
    else if tp = "who-reply" then
      match p.data with | some (.viewsD _) => true | _ => false
    else if tp = "hello-event" then
      match p.data with | some (.helloD _) => true | _ => false
    else if tp = "join-event" || tp = "part-event" then
      match p.data with | some (.viewD _) => true | _ => false
    else if tp = "snapshot-event" then
      match p.data with | some (.snapshotD _ _) => true | _ => false
    else true

/-- Attribute access `packet.type`: succeeds on a wrapped `Packet` (a
`Record` exporting `type`), but raises an `AttributeError` on the plain
dict left behind when postprocessing failed. -/
def getTypeAttr (wrapped : Bool) (p : RawPacket) : Except Unit String :=
  if wrapped then
    match p.type with
    | some t => pure t
    | none => throw ()
  else throw ()

/-- Attribute access `packet.data` (followed by the payload accesses of the
calling handler), with the same wrapped-versus-dict distinction. -/
def getDataAttr (wrapped : Bool) (p : RawPacket) : Except Unit PData :=
  if wrapped then
    match p.data with
    | some d => pure d
    | none => throw ()
  else throw ()

/-- The two endpoint classes modelled: the bare `HeimEndpoint` and the
roster/log-maintaining `LoggingEndpoint`. -/
inductive EndpointKind
  | base
  | logging
deriving DecidableEq, Repr

/-- Payloads of the outbound command packets the modelled code emits
(`ping-reply {time}`, `nick {name}`, `auth {type, passcode}`), plus an
`emptyD` stand-in for payloads of caller-issued commands such as `who {}`. -/
inductive OutData
  | timeD (t : Option Int)
  | nameD (n : String)
  | authD (passcode : String)
  | emptyD
deriving DecidableEq, Repr

/-- An outbound command packet `{'type': type, 'id': cmdid, 'data': data}`
as built by `send_packet_raw`. -/
structure OutPacket where
  type : String
  id : String
  data : OutData
deriving DecidableEq, Repr

/-- State of a `HeimEndpoint` (or `LoggingEndpoint` when
`kind = .logging`): configuration plus the mutable fields of `__init__`.
The live transport is abstracted to the boolean `connection`. -/
structure Endpoint where
  kind : EndpointKind
  roomname : Option String := none
  nickname : Option String := none
  passcode : Option String := none
  log_users : Bool := false
  log_messages : Bool := false
  cmdid : Nat := 0
  callbacks : List String := []
  eff_nickname : Option String := none
  session_id : Option String := none
  nick_set : Bool := false
  logged_in : Bool := false
  connection : Bool := false
  users : UserList := UserList.empty
  messages : MessageTree := MessageTree.init
deriving DecidableEq, Repr

/-- Embedding of `send_packet_raw(type, data=...)`: the serial command id is
taken and incremented under the lock before the transmission is attempted. -/
def Endpoint.send_packet_raw (e : Endpoint) (tp : String) (d : OutData) :
    Endpoint × OutPacket :=
  ({ e with cmdid := e.cmdid + 1 },
   { type := tp, id := toString e.cmdid, data := d })

/-- Embedding of `send_packet` as used by the built-in handlers: build the
packet via `send_packet_raw`, then `send_raw` it, which fails with a
`NoConnectionError` when no transport is installed (the id has already been
consumed at that point). -/
def Endpoint.send_packet (e : Endpoint) (tp : String) (d : OutData) :
    Except Unit (Endpoint × OutPacket) :=
  let (e', pkt) := e.send_packet_raw tp d
  if e.connection then pure (e', pkt) else throw ()

/-- Embedding of `_disconnect` composed with the `handle_close` overrides:
drop the transport, reset the session state (`eff_nickname`, `session_id`,
`_nick_set`, `_logged_in`), and, on a `LoggingEndpoint`, clear the roster
and the log. `cmdid` is not touched. -/
def Endpoint.closeOp (e : Endpoint) : Endpoint :=
  { e with connection := false, logged_in := false, nick_set := false,
           eff_nickname := none, session_id := none,
           users := if e.kind = .logging then e.users.clear else e.users,
           messages :=
             if e.kind = .logging then e.messages.clear else e.messages }

/-- Embedding of `_connect`: `NoRoomError` when no room is configured,
a no-op when a connection is already installed, otherwise install a fresh
transport (`handle_connect` is a pass). -/
def Endpoint.connectOp (e : Endpoint) : Except Unit Endpoint :=
  match e.roomname with
  | none => throw ()
  | some _ => if e.connection then pure e else pure { e with connection := true }

/-- Step (1) of the dispatch chain, `handle_early`: a pass on the base
class; roster and log maintenance on a `LoggingEndpoint` (guarded by the
`log_users` / `log_messages` flags, each of which reads `packet.type` as an
attribute). Roster index exceptions propagate. -/
def handleEarly (e : Endpoint) (wrapped : Bool) (p : RawPacket) :
    Except Unit Endpoint := do
  match e.kind with
  | .base => pure e
  | .logging => do
    let e ←
      if e.log_users then do
        let t ← getTypeAttr wrapped p
        if t = "who-reply" then do
          let d ← getDataAttr wrapped p
          match d with
          | .viewsD l => do
            let u ← e.users.add l
            pure { e with users := u }
          | _ => throw ()
        else if t = "snapshot-event" then do
          let d ← getDataAttr wrapped p
          match d with
          | .snapshotD listing _ => do
            let u ← e.users.add listing
            pure { e with users := u }
          | _ => throw ()
        else if t = "network-event" then do
          let d ← getDataAttr wrapped p
          match d with
          | .networkD ntype sid era =>
            if ntype = "partition" then do
              let u ← e.users.removeMatchingShard sid era
              pure { e with users := u }
            else pure e
          | _ => throw ()
        else if t = "nick-event" then do
          let d ← getDataAttr wrapped p
          match d with
          | .nickD sid _ toName =>
            match e.users.nickApply sid toName with
            | some u => pure { e with users := u }
            | none => throw ()
          | _ => throw ()
        else if t = "join-event" then do
          let d ← getDataAttr wrapped p
          match d with
          | .viewD v => do
            let u ← e.users.add [v]
            pure { e with users := u }
          | _ => throw ()
        else if t = "part-event" then do
          let d ← getDataAttr wrapped p
          match d with
          | .viewD v => do
            let u ← e.users.remove [v]
            pure { e with users := u }
          | _ => throw ()
        else pure e
      else pure e
    if e.log_messages then do
      let t ← getTypeAttr wrapped p
      if t ∈ msgPromoteTypes then do
        let d ← getDataAttr wrapped p
        match d with
        | .msgD m => pure { e with messages := e.messages.add [m] }
        | _ => throw ()
      else if t = "log-reply" then do
        let d ← getDataAttr wrapped p
        match d with
        | .logD l => pure { e with messages := e.messages.add l }
        | _ => throw ()
      else if t = "snapshot-event" then do
        let d ← getDataAttr wrapped p
        match d with
        | .snapshotD _ l => pure { e with messages := e.messages.add l }
        | _ => throw ()
      else pure e
    else pure e

/-- Step (2), the built-in lifecycle handlers, selected by exact match on
`packet.get('type')` (a dict read, which also works on unwrapped frames). -/
def builtinStep (e : Endpoint) (wrapped : Bool) (p : RawPacket) :
    Except Unit (Endpoint × List OutPacket) := do
  match p.type with
  | none => pure (e, [])
  | some t =>
    if t = "bounce-event" then
      match e.passcode with
      | some pc =>
        if e.connection then do
          let (e', pkt) ← e.send_packet "auth" (.authD pc)
          pure (e', [pkt])
        else pure (e, [])
      | none => pure (e, [])
    else if t = "disconnect-event" then
      if p.reason = some "authentication changed" then do
        let e := e.closeOp
        let e ← e.connectOp
        pure (e, [])
      else pure (e, [])
    else if t = "hello-event" then do
      let d ← getDataAttr wrapped p
      match d with
      | .helloD v => pure ({ e with session_id := some v.session_id }, [])
      | _ => throw ()
    else if t = "ping-event" then do
      let (e', pkt) ← e.send_packet "ping-reply" (.timeD p.time)
      pure (e', [pkt])
    else if t = "snapshot-event" then do
      let e := { e with logged_in := true }
      match e.nickname with
      | some n =>
        if e.connection then do
          let (e', pkt) ← e.send_packet "nick" (.nameD n)
          pure (e', [pkt])
        else pure (e, [])
      | none => pure (e, [])
    else pure (e, [])

/-- Step (2b), `handle_reply`, invoked for every `*-reply` type; it reads
`packet.type` as an attribute and records the confirmed nickname from a
`nick-reply`. -/
def handleReply (e : Endpoint) (wrapped : Bool) (p : RawPacket) :
    Except Unit Endpoint := do
  let t ← getTypeAttr wrapped p
  if t = "nick-reply" then do
    let d ← getDataAttr wrapped p
    match d with
    | .nickReplyD toName =>
      let e := { e with eff_nickname := some toName }
      if !e.nick_set then pure { e with nick_set := true } else pure e
    | _ => throw ()
  else pure e

/-- Step (5), `self.callbacks.pop(packet.get('id'), None)`: drop the
pending one-shot callback for the frame's correlation id, if any (the
callback body is caller code, outside the modelled core). -/
def popCallback (e : Endpoint) (id : Option String) : Endpoint :=
  match id with
  | none => e
  | some i => { e with callbacks := e.callbacks.erase i }

/-- Step (6), `handle_any`: a pass on the base class; the chat/log
notification dispatch on a `LoggingEndpoint`, which begins by reading
`packet.type` as an attribute (`handle_chat`, `handle_logs` and the
`chat_handlers` list are caller extension points, passes here). -/
def handleAny (e : Endpoint) (wrapped : Bool) (p : RawPacket) :
    Except Unit Endpoint := do
  match e.kind with
  | .base => pure e
  | .logging => do
    let t ← getTypeAttr wrapped p
    if t = "edit-message-reply" || t = "send-reply" ||
       t = "edit-message-event" || t = "send-event" then do
      let d ← getDataAttr wrapped p
      match d with
      | .msgD _ => pure e
      | _ => throw ()
    else if t = "get-message-reply" then do
      let d ← getDataAttr wrapped p
      match d with
      | .msgD _ => pure e
      | _ => throw ()
    else if t = "log-reply" then do
      let d ← getDataAttr wrapped p
      match d with
      | .logD _ => pure e
      | _ => throw ()
    else if t = "snapshot-event" then do
      let d ← getDataAttr wrapped p
      match d with
      | .snapshotD _ _ => pure e
      | _ => throw ()
    else pure e

/-- Embedding of `HeimEndpoint.handle(packet)` (with the handler registries
and the callback bodies — caller code — empty): postprocess the frame,
falling back to the unwrapped dict on a `KeyError`, then run the chain
`handle_early`, built-ins, `handle_reply` for `*-reply` types, the
registered handlers, the one-shot callback, and `handle_any`. Returns the
post-dispatch state and the packets sent while handling, in order; `.error`
is an exception escaping the dispatch. -/
def Endpoint.handle (e : Endpoint) (p : RawPacket) :
    Except Unit (Endpoint × List OutPacket) := do
  let wrapped := postprocessOk p
  let e ← handleEarly e wrapped p
  let (e, out1) ← builtinStep e wrapped p
  let e ←
    match p.type with
    | some t => if strEndsWith t "-reply" then handleReply e wrapped p else pure e
    | none => pure e
  let e := popCallback e p.id
  let e ← handleAny e wrapped p
  pure (e, out1)

/-- Operations a caller can perform on an endpoint between frames, for
reasoning about the correlation-id sequence: `connect()`, `close()`, and
issuing a command via `send_packet_raw`. -/
inductive EOp
  | connect
  | close
  | send (tp : String) (d : OutData)
deriving DecidableEq, Repr

/-- Apply one caller operation; a `send` consumes a correlation id and then
fails if no transport is installed. -/
def applyEOp (e : Endpoint) : EOp → Except Unit (Endpoint × List OutPacket)
  | .connect =>
    match e.connectOp with
    | .ok e1 => .ok (e1, [])
    | .error x => .error x
  | .close => .ok (e.closeOp, [])
  | .send tp d =>
    match e.send_packet tp d with
    | .ok (e1, pkt) => .ok (e1, [pkt])
    | .error x => .error x

/-- Run a sequence of caller operations, collecting every packet sent (an
escaping exception aborts the run). -/
def runEOps (e : Endpoint) : List EOp → Except Unit (Endpoint × List OutPacket)
  | [] => .ok (e, [])
  | op :: rest =>
    match applyEOp e op with
    | .error x => .error x
    | .ok (e1, out) =>
      match runEOps e1 rest with
      | .error x => .error x
      | .ok (e2, outs) => .ok (e2, out ++ outs)

/-! Concrete inputs used by counterexamples and witnesses. -/

/-- A sample roster entry. -/
def vOld : SessionView :=
  { id := "agent:a", name := "Old", server_id := "srv", server_era := "era",
    session_id := "s1" }

/-- The sample entry after the nick event renames it. -/
def vNew : SessionView := { vOld with name := "New" }

/-- The roster state produced by adding a single view to a fresh
`UserList`. -/
def singleRoster (v : SessionView) : UserList :=
  { list := [v], by_session_id := [(v.session_id, v)],
    by_agent_id := [(v.id, [v])], by_name := [(v.name, [v])] }

/-- A connected `LoggingEndpoint` maintaining the roster, with the given
user list. -/
def logUsersEP (u : UserList) : Endpoint :=
  { kind := .logging, roomname := some "room", log_users := true,
    connection := true, users := u }

/-- The frame of a `nick` event for the given session and new name. -/
def nickEventPkt (sid newName : String) : RawPacket :=
  { type := some "nick-event", data := some (.nickD sid "old" newName) }

/-- A sample top-level message. -/
def msgA : Msg := { id := "1", parent := none, content := "a" }

/-- The same message id re-submitted with a different parent. -/
def msgB : Msg := { id := "1", parent := some "0", content := "b" }

/-- A connected bare `HeimEndpoint`. -/
def baseEP : Endpoint :=
  { kind := .base, roomname := some "room", connection := true }

/-- A connected `LoggingEndpoint` maintaining both the roster and the
log. -/
def logBothEP : Endpoint :=
  { kind := .logging, roomname := some "room", log_users := true,
    log_messages := true, connection := true }

/-- A frame missing every field, in particular the required `type`. -/
def emptyFrame : RawPacket := {}

/-- A freshly constructed `HeimEndpoint` before its first connect. -/
def freshEP : Endpoint := { kind := .base, roomname := some "room" }

/-- Connect, send a command, close, reconnect, send another command. -/
def reconnectTrace : List EOp :=
  [.connect, .send "who" .emptyD, .close, .connect, .send "who" .emptyD]

/-- The first `who` command of `reconnectTrace`. -/
def whoPkt0 : OutPacket := { type := "who", id := "0", data := .emptyD }

/-- The second `who` command of `reconnectTrace`, sent after the
reconnect. -/
def whoPkt1 : OutPacket := { type := "who", id := "1", data := .emptyD }

/-- The endpoint state after running `reconnectTrace` from `freshEP`. -/
def afterReconnectEP : Endpoint :=
  { kind := .base, roomname := some "room", connection := true, cmdid := 2 }

/-- The roster state after the nick event rename: every alias of the view
carries the new name, every index key is unchanged. -/
def renamedRoster (v : SessionView) (n : String) : UserList :=
  { list := [{ v with name := n }],
    by_session_id := [(v.session_id, { v with name := n })],
    by_agent_id := [(v.id, [{ v with name := n }])],
    by_name := [(v.name, [{ v with name := n }])] }

/-- The C2 invariant: every child list in the parent index is strictly
ascending (sorted with no duplicate ids). -/
def ChildInv (t : MessageTree) : Prop :=
  ∀ p l, lookupP t.children p = some l → l.Pairwise (· < ·)

/-- Weakening of `ChildInv`: every child list is duplicate-free. -/
def NodupChildren (t : MessageTree) : Prop :=
  ∀ p l, lookupP t.children p = some l → l.Nodup

/-- An edit of `msgA`: same id, same parent, new content. -/
def msgEdit : Msg := { id := "1", parent := none, content := "edited" }

/-- A ping event frame carrying timestamp `123`. -/
def pingFrame : RawPacket := { type := some "ping-event", time := some 123 }

end Basebot

namespace Basebot

/-! Theorems about the embedded code. -/

/-- Claim C9 (counterexample): `format_delta(-3661)` is `"- 1h 1m 1s"` —
the leading sign is a separate space-joined component — not the claimed
`"-1h 1m 1s"`. -/
theorem format_delta_negative_cex :
    format_delta (-3661) true ≠ "-1h 1m 1s" ∧
    format_delta (-3661) true = "- 1h 1m 1s" := by
  constructor
  · norm_num [format_delta, qFloorDiv, pyTrunc, qIsInt, pyRound3, renderFloat,
      pad3, stripRightZeros, Int.fdiv]
    decide
  · norm_num [format_delta, qFloorDiv, pyTrunc, qIsInt, pyRound3, renderFloat,
      pad3, stripRightZeros, Int.fdiv]
    rfl

/-- Claim C9 (amended): `format_delta` yields `"0s"` for `0`, `"1h"` for
`3600`, `"- 1h 1m 1s"` for `-3661` (sign joined as its own component), and
`"1m 30.5s"` for `90.5` with fractions enabled. -/
theorem format_delta_values :
    format_delta 0 true = "0s" ∧
    format_delta 3600 true = "1h" ∧
    format_delta (-3661) true = "- 1h 1m 1s" ∧
    format_delta (90.5 : ℚ) true = "1m 30.5s" := by
  refine ⟨by norm_num [format_delta], ?_, ?_, ?_⟩ <;>
    · norm_num [format_delta, qFloorDiv, pyTrunc, qIsInt, pyRound3,
        renderFloat, pad3, stripRightZeros, Int.fdiv]
      rfl

/-- Claim C4 (counterexample): for content `"hi @Bob, @Alice!"` the
`mention_set` is built from the tokens with only the leading `@` stripped —
no case folding is applied — so it is `{"Bob", "Alice"}`, not the claimed
normalized `{"bob", "alice"}`. -/
theorem mention_set_not_normalized_cex :
    ((MessageCache.init "hi @Bob, @Alice!").mentionListRead.2.mentionSetRead).map
        (fun x => x.1) ≠ some ({"bob", "alice"} : Finset String) ∧
    ((MessageCache.init "hi @Bob, @Alice!").mentionListRead.2.mentionSetRead).map
        (fun x => x.1) = some ({"Bob", "Alice"} : Finset String) := by
  constructor
  · decide
  · decide

/-- Claim C10: on a freshly constructed `Message`, reading `mention_set`
before `mention_list` has ever been read fails (the set is built by
iterating the still-`None` cached list), and after a `mention_list` read a
`mention_set` read succeeds, returning the cached tokens with their leading
`@` stripped. -/
theorem mention_set_requires_mention_list (content : String) :
    (MessageCache.init content).mentionSetRead = none ∧
    ((MessageCache.init content).mentionListRead.2.mentionSetRead).map
        (fun x => x.1) =
      some (((MessageCache.init content).mentionListRead.1.map
        (fun i => i.2.drop 1)).toFinset) := by
  constructor
  · rfl
  · rfl

/-- Claim C8: the failing input. A frame with no `type` field is dispatched
to completion by the bare `HeimEndpoint` (the `KeyError` from
`_postprocess_packet` is deliberately caught and the frame continues
through the chain unwrapped), but on a `LoggingEndpoint` — which maintains
the roster and log — the dispatch dies with an `AttributeError`, because
`handle_early`/`handle_any` read `packet.type` as an attribute of the
unwrapped plain dict. -/
theorem malformed_frame_dispatch_divergence :
    baseEP.handle emptyFrame = .ok (baseEP, []) ∧
    logBothEP.handle emptyFrame = .error () := by
  constructor
  · rfl
  · rfl

/-- Claim C6 (counterexample): the correlation-id counter is not reset by a
reconnect: connecting, sending a command, closing, reconnecting and sending
again yields ids `"0"` then `"1"`, not `"0"` again after the second
connect. -/
theorem cmdid_not_reset_on_reconnect_cex :
    (runEOps freshEP reconnectTrace).map (fun r => r.2.map (fun p => p.id)) =
      .ok ["0", "1"] ∧ ("1" : String) ≠ "0" := by
  constructor
  · rfl
  · decide

/-- Claim C3 (counterexample): re-adding message id `"1"` with a different
parent leaves the id in the old parent's bucket as well as the new one —
it then occurs in two buckets, not exactly one. -/
theorem messageTree_readd_reparent_cex :
    ((MessageTree.init.add [msgA]).add [msgB]).bucketsContaining "1" = 2 ∧
    ((MessageTree.init.add [msgA]).add [msgB]).get "1" = some msgB := by
  constructor
  · rfl
  · rfl

/-- Helper: `MENTION_RE` cannot match at any position of a line containing
no `@` character. -/
theorem matchAt_eq_none_of_no_at {s : List Char} (h : '@' ∉ s) (p : Nat) :
    matchAt s p = none := by
  have hne : s.get? p ≠ some '@' := by
    intro hc
    exact h (List.get?_mem hc)
  have h1 : (s.get? p == some '@') = false := beq_eq_false_iff_ne.mpr hne
  unfold matchAt
  rw [h1, Bool.false_and]
  rfl

/-- Helper: the regex search loop finds nothing in a line containing no `@`
character. -/
theorem searchLoop_eq_none_of_no_at {s : List Char} (h : '@' ∉ s) :
    ∀ fuel p, searchLoop s fuel p = none := by
  intro fuel
  induction fuel with
  | zero => intro p; rfl
  | succ n ih =>
    intro p
    simp only [searchLoop, matchAt_eq_none_of_no_at h]
    split
    · exact ih (p + 1)
    · rfl

/-- Helper: `scan_mentions` yields nothing on content with no `@`. -/
theorem scan_mentions_eq_nil_of_no_at {line : String}
    (h : '@' ∉ line.toList) : scan_mentions line = [] := by
  simp only [scan_mentions, scanLoop, searchFrom, searchLoop_eq_none_of_no_at h]
  split <;> rfl

/-- Claim C4 (amended): for content `"hi @Bob, @Alice!"`, `mention_list`
yields `[(3, "@Bob"), (9, "@Alice")]` and `mention_set` (read after
`mention_list`) yields the tokens with the leading `@` stripped but *not*
normalized, `{"Bob", "Alice"}`; for every content containing no `@`, the
mention list and the mention set are empty. -/
theorem mention_scan_values :
    (MessageCache.init "hi @Bob, @Alice!").mentionListRead.1 =
      [(3, "@Bob"), (9, "@Alice")] ∧
    ((MessageCache.init "hi @Bob, @Alice!").mentionListRead.2.mentionSetRead).map
        (fun x => x.1) = some ({"Bob", "Alice"} : Finset String) ∧
    ∀ content : String, '@' ∉ content.toList →
      scan_mentions content = [] ∧
      ((MessageCache.init content).mentionListRead.2.mentionSetRead).map
          (fun x => x.1) = some (∅ : Finset String) := by
  refine ⟨by decide, by decide, fun content h => ?_⟩
  have hs : scan_mentions content = [] := scan_mentions_eq_nil_of_no_at h
  constructor
  · exact hs
  · simp [MessageCache.init, MessageCache.mentionListRead,
      MessageCache.mentionSetRead, hs]

/-- Witness for the amended claim C4 at concrete `@`-free content. -/
theorem mention_scan_values_witness :
    scan_mentions "plain text" = [] ∧
    ((MessageCache.init "plain text").mentionListRead.2.mentionSetRead).map
        (fun x => x.1) = some (∅ : Finset String) :=
  mention_scan_values.2.2 "plain text" (by decide)

/-- Claim C5 (counterexample): after a `nick` event renames session `"s1"`
from `"Old"` to `"New"`, a roster lookup by the new name returns nothing
(the name index still files the entry under the old key), while a lookup by
the old name returns the renamed session — the opposite of the claimed
re-indexing. -/
theorem nick_event_no_reindex_cex :
    ((logUsersEP (singleRoster vOld)).handle (nickEventPkt "s1" "New")).map
        (fun r => (r.1.users.for_name "New", r.1.users.for_name "Old")) =
      .ok ([], [vNew]) := by
  rfl

/-- Claim C7: any inbound `ping-event` frame is answered within the same
dispatch by exactly one outbound `ping-reply` packet whose `time` payload
is the timestamp the handler reads off the ping event frame
(`packet.get('time')`), for any endpoint (base or logging) with a live
connection. -/
theorem ping_event_immediate_reply (e : Endpoint) (p : RawPacket)
    (htype : p.type = some "ping-event") (hconn : e.connection = true) :
    ∃ e', e.handle p =
      .ok (e', [{ type := "ping-reply", id := toString e.cmdid,
                  data := .timeD p.time }]) := by
  obtain ⟨kind, room, nick, pass, lu, lm, cmdid, cbs, effn, sid, ns, li, conn,
    us, ms⟩ := e
  obtain ⟨ptype, pid, pdata, preason, ptime⟩ := p
  simp only at htype hconn
  subst htype
  subst hconn
  cases kind <;> cases lu <;> cases lm <;> cases pid <;> exact ⟨_, rfl⟩

/-- Witness for claim C7 at a concrete endpoint and ping frame. -/
theorem ping_event_immediate_reply_witness :
    ∃ e', baseEP.handle pingFrame =
      .ok (e', [{ type := "ping-reply", id := toString baseEP.cmdid,
                  data := .timeD pingFrame.time }]) :=
  ping_event_immediate_reply baseEP pingFrame rfl rfl

/-- Helper: a successful `connect` leaves the correlation-id counter
untouched. -/
theorem connectOp_cmdid {e e1 : Endpoint} (hc : e.connectOp = .ok e1) :
    e1.cmdid = e.cmdid := by
  unfold Endpoint.connectOp at hc
  split at hc
  · cases hc
  · split at hc <;> cases hc <;> rfl

/-- Helper: one caller operation extends the outbound-id sequence
contiguously from the current counter. -/
theorem applyEOp_cmdid (e : Endpoint) (op : EOp) (e' : Endpoint)
    (out : List OutPacket) (h : applyEOp e op = .ok (e', out)) :
    e'.cmdid = e.cmdid + out.length ∧
    out.map (fun pkt => pkt.id) = (List.range' e.cmdid out.length).map toString := by
  cases op with
  | connect =>
    simp only [applyEOp] at h
    split at h
    · case _ e1 hc =>
      cases h
      simp [connectOp_cmdid hc]
    · cases h
  | close =>
    simp only [applyEOp] at h
    cases h
    simp [Endpoint.closeOp]
  | send tp d =>
    simp only [applyEOp, Endpoint.send_packet, Endpoint.send_packet_raw] at h
    split at h
    · cases h
      rename_i x pkt heq
      split at heq
      · cases heq
        simp [List.range']
      · cases heq
    · cases h

/-- Helper: over any successful operation sequence the sent ids form the
contiguous range starting at the initial counter value. -/
theorem runEOps_cmdid :
    ∀ (ops : List EOp) (e e' : Endpoint) (outs : List OutPacket),
      runEOps e ops = .ok (e', outs) →
      e'.cmdid = e.cmdid + outs.length ∧
      outs.map (fun pkt => pkt.id) =
        (List.range' e.cmdid outs.length).map toString := by
  intro ops
  induction ops with
  | nil =>
    intro e e' outs h
    cases h
    simp
  | cons op rest ih =>
    intro e e' outs h
    simp only [runEOps] at h
    split at h
    · cases h
    · case _ e1 out1 h1 =>
      split at h
      · cases h
      · case _ e2 outs2 h2 =>
        cases h
        obtain ⟨hc1, hi1⟩ := applyEOp_cmdid e op e1 out1 h1
        obtain ⟨hc2, hi2⟩ := ih e1 e' outs2 h2
        constructor
        · rw [List.length_append, hc2, hc1, Nat.add_assoc]
        · rw [List.map_append, hi1, hi2, hc1, ← List.map_append,
            List.length_append]
          congr 1
          have h3 := List.range'_append e.cmdid out1.length outs2.length 1
          simp only [one_mul] at h3
          rw [h3, Nat.add_comm]

/-- Claim C6 (amended): the correlation-id sequence is per endpoint
instance, not per connection: starting from a freshly constructed endpoint
(counter zero), over any successful operation sequence — including closes
and reconnects — the ids of all sent command packets are `"0"`, `"1"`, …
in order, spanning reconnects without restarting. -/
theorem cmdid_sequential_per_instance (e0 : Endpoint) (ops : List EOp)
    (e' : Endpoint) (outs : List OutPacket)
    (h0 : e0.cmdid = 0) (h : runEOps e0 ops = .ok (e', outs)) :
    outs.map (fun pkt => pkt.id) = (List.range outs.length).map toString ∧
    e'.cmdid = outs.length := by
  obtain ⟨hc, hi⟩ := runEOps_cmdid ops e0 e' outs h
  rw [h0] at hc hi
  refine ⟨by rw [hi, List.range_eq_range'], by omega⟩

/-- Witness for the amended claim C6 on the concrete reconnect trace. -/
theorem cmdid_sequential_per_instance_witness :
    ([whoPkt0, whoPkt1].map (fun pkt => pkt.id) =
      (List.range ([whoPkt0, whoPkt1] : List OutPacket).length).map toString) ∧
    afterReconnectEP.cmdid = ([whoPkt0, whoPkt1] : List OutPacket).length :=
  cmdid_sequential_per_instance freshEP reconnectTrace afterReconnectEP
    [whoPkt0, whoPkt1] rfl (by rfl)

/-- Claim C5 (amended): a `nick` event for a known session updates the
entry's `name` field in place through every index alias, but does *not*
re-index it: afterwards a roster lookup by the *old* name still returns the
(renamed) session, and a lookup by the new name returns nothing. Stated on
a roster holding exactly the affected session. -/
theorem nick_event_updates_in_place (v : SessionView) (n : String)
    (hne : v.name ≠ n) :
    (logUsersEP (singleRoster v)).handle (nickEventPkt v.session_id n) =
      .ok ({ logUsersEP (singleRoster v) with users := renamedRoster v n },
           []) ∧
    (renamedRoster v n).for_name v.name = [{ v with name := n }] ∧
    (renamedRoster v n).for_name n = [] := by
  refine ⟨?_, ?_, ?_⟩
  · simp [Endpoint.handle, logUsersEP, singleRoster, nickEventPkt, handleEarly,
      builtinStep, handleReply, handleAny, getTypeAttr, getDataAttr,
      postprocessOk, popCallback, msgPromoteTypes, strEndsWith,
      UserList.nickApply, lookupA, renamedRoster, Endpoint.send_packet,
      Endpoint.send_packet_raw, bind, Except.bind, pure, Except.pure]
  · simp [UserList.for_name, getBucket, lookupA, renamedRoster]
  · simp [UserList.for_name, getBucket, lookupA, renamedRoster, hne]

/-- Witness for the amended claim C5 at a concrete view and new name. -/
theorem nick_event_updates_in_place_witness :
    (logUsersEP (singleRoster vOld)).handle
        (nickEventPkt vOld.session_id "New") =
      .ok ({ logUsersEP (singleRoster vOld) with
             users := renamedRoster vOld "New" }, []) ∧
    (renamedRoster vOld "New").for_name vOld.name =
      [{ vOld with name := "New" }] ∧
    (renamedRoster vOld "New").for_name "New" = [] :=
  nick_event_updates_in_place vOld "New" (by decide)

/-- Helper: dict write/read agreement for the parent-keyed index. -/
theorem lookupP_setP {α : Type} (l : List (Option String × α))
    (k k' : Option String) (v : α) :
    lookupP (setP l k v) k' = if k = k' then some v else lookupP l k' := by
  induction l with
  | nil => simp [setP, lookupP]
  | cons hd tl ih =>
    obtain ⟨k1, w⟩ := hd
    by_cases h1 : k1 = k
    · subst h1
      simp only [setP, if_pos rfl, lookupP]
      by_cases h2 : k1 = k'
      · subst h2; simp [lookupP]
      · simp [h2, lookupP]
    · simp only [setP, if_neg h1, lookupP]
      by_cases h2 : k1 = k'
      · subst h2
        have hk : k ≠ k1 := fun hh => h1 hh.symm
        simp [setP, h1, lookupP, hk]
      · simp [lookupP, h2, ih]

/-- Helper: the loop body of `MessageTree.add` only modifies the bucket of
the inserted message's parent. -/
theorem lookupP_addInsert (t : MessageTree) (m : Msg) (p : Option String) :
    lookupP (t.addInsert m).children p =
      if m.parent = p then
        some (let c := (lookupP t.children m.parent).getD [];
              if m.id ∈ c then c else c ++ [m.id])
      else lookupP t.children p := by
  simp only [MessageTree.addInsert]
  exact lookupP_setP _ _ _ _

/-- Helper: the guarded append keeps every child list duplicate-free. -/
theorem nodup_addInsert {t : MessageTree} (m : Msg)
    (h : NodupChildren t) : NodupChildren (t.addInsert m) := by
  intro p l hl
  rw [lookupP_addInsert] at hl
  split at hl
  · cases hl
    cases hc : lookupP t.children m.parent with
    | none => simp [hc]
    | some c0 =>
      have hnd := h _ _ hc
      simp only [hc, Option.getD_some]
      split
      · exact hnd
      · rw [List.nodup_append]
        refine ⟨hnd, List.nodup_singleton _, ?_⟩
        intro a ha hb
        simp at hb
        subst hb
        exact absurd ha (by assumption)
  · exact h p l hl

/-- Helper: buckets of parents not occurring in the batch are untouched by
the insertion loop. -/
theorem lookupP_foldl_untouched (lst : List Msg) (t : MessageTree)
    (p : Option String) (hp : p ∉ lst.map (fun m => m.parent)) :
    lookupP ((lst.foldl MessageTree.addInsert t).children) p =
      lookupP t.children p := by
  induction lst generalizing t with
  | nil => rfl
  | cons m rest ih =>
    simp only [List.map_cons, List.mem_cons, not_or] at hp
    rw [List.foldl_cons, ih _ hp.2, lookupP_addInsert,
      if_neg (fun hh => hp.1 hh.symm)]

/-- Helper: the whole insertion loop keeps every child list
duplicate-free. -/
theorem nodup_foldl (lst : List Msg) (t : MessageTree)
    (h : NodupChildren t) :
    NodupChildren (lst.foldl MessageTree.addInsert t) := by
  induction lst generalizing t with
  | nil => exact h
  | cons m rest ih => exact ih _ (nodup_addInsert m h)

/-- Helper: a sorted duplicate-free list of ids is strictly ascending. -/
theorem pairwise_lt_of_sorted_nodup {l : List String}
    (hs : l.Sorted (· ≤ ·)) (hn : l.Nodup) : l.Pairwise (· < ·) :=
  (hs.and hn).imp (fun hab => lt_of_le_of_ne hab.1 hab.2)

/-- Helper: after sorting every touched bucket, all buckets are strictly
ascending, provided the untouched ones already were. -/
theorem sortTouched_childInv (ts : List (Option String)) (t : MessageTree)
    (hnd : NodupChildren t)
    (hkeep : ∀ p l, lookupP t.children p = some l → p ∉ ts →
      l.Pairwise (· < ·)) :
    ChildInv (t.sortTouched ts) := by
  induction ts generalizing t with
  | nil =>
    intro p l hl
    exact hkeep p l hl (by simp)
  | cons q rest ih =>
    have hstep : t.sortTouched (q :: rest) = (t.sortStep q).sortTouched rest :=
      rfl
    rw [hstep]
    unfold MessageTree.sortStep
    cases hq : lookupP t.children q with
    | none =>
      refine ih t hnd ?_
      intro p l hl hrest
      by_cases hpq : p = q
      · subst hpq; rw [hq] at hl; cases hl
      · exact hkeep p l hl (by simp [hrest, hpq])
    | some c =>
      refine ih _ ?_ ?_
      · intro p l hl
        rw [lookupP_setP] at hl
        split at hl
        · cases hl
          exact ((List.perm_insertionSort _ c).nodup_iff).mpr (hnd _ _ hq)
        · exact hnd p l hl
      · intro p l hl hrest
        rw [lookupP_setP] at hl
        split at hl
        · cases hl
          exact pairwise_lt_of_sorted_nodup
            (List.sorted_insertionSort _ c)
            (((List.perm_insertionSort _ c).nodup_iff).mpr (hnd _ _ hq))
        · rename_i hqp
          refine hkeep p l hl ?_
          simp only [List.mem_cons, not_or]
          exact ⟨fun hh => hqp hh.symm, hrest⟩

/-- Helper: `MessageTree.add` preserves the sorted/duplicate-free child
list invariant, for any batch in any order. -/
theorem childInv_add {t : MessageTree} (lst : List Msg)
    (h : ChildInv t) : ChildInv (t.add lst) := by
  have hnd : NodupChildren t := fun p l hl =>
    ((h p l hl).imp (fun hab => ne_of_lt hab))
  refine sortTouched_childInv _ _ (nodup_foldl lst t hnd) ?_
  intro p l hl hp
  rw [lookupP_foldl_untouched lst t p hp] at hl
  exact h p l hl

/-- Helper: a fresh `MessageTree` satisfies the child list invariant. -/
theorem childInv_init : ChildInv MessageTree.init := by
  intro p l hl
  cases hl

/-- Claim C2: for every sequence of batches passed to `MessageTree.add`,
in any insertion order, after each call every per-parent child list is
sorted ascending by message id with no duplicate ids. -/
theorem messageTree_children_sorted_nodup (batches : List (List Msg)) :
    ChildInv (batches.foldl MessageTree.add MessageTree.init) := by
  have : ∀ t, ChildInv t → ChildInv (batches.foldl MessageTree.add t) := by
    induction batches with
    | nil => exact fun t h => h
    | cons b rest ih => exact fun t h => ih _ (childInv_add b h)
  exact this _ childInv_init

/-- Helper: writing back the value already stored under a key leaves the
dict unchanged. -/
theorem setP_self {α : Type} (l : List (Option String × α))
    (k : Option String) (v : α) (h : lookupP l k = some v) :
    setP l k v = l := by
  induction l with
  | nil => cases h
  | cons hd tl ih =>
    obtain ⟨k1, w⟩ := hd
    by_cases h1 : k1 = k
    · subst h1
      simp only [lookupP, if_pos rfl] at h
      cases h
      simp [setP]
    · simp only [lookupP, if_neg h1] at h
      simp [setP, h1, ih h]

/-- Helper: dict write/read agreement for the string-keyed indexes. -/
theorem lookupA_setA {α : Type} (l : List (String × α)) (k k' : String)
    (v : α) :
    lookupA (setA l k v) k' = if k = k' then some v else lookupA l k' := by
  induction l with
  | nil => simp [setA, lookupA]
  | cons hd tl ih =>
    obtain ⟨k1, w⟩ := hd
    by_cases h1 : k1 = k
    · subst h1
      simp only [setA, if_pos rfl, lookupA]
      by_cases h2 : k1 = k'
      · subst h2; simp [lookupA]
      · simp [h2, lookupA]
    · simp only [setA, if_neg h1, lookupA]
      by_cases h2 : k1 = k'
      · subst h2
        have hk : k ≠ k1 := fun hh => h1 hh.symm
        simp [setA, h1, lookupA, hk]
      · simp [lookupA, h2, ih]

/-- Claim C3 (amended): re-inserting a message whose `id` is already
stored, carrying the *same* parent as the stored version, overwrites the
stored record in place and leaves the entire parent index unchanged — the
id still occurs exactly where it did, ordering undisturbed. (With a
different parent the id additionally enters the new bucket and stays in
the old one; see the counterexample.) -/
theorem messageTree_readd_same_parent (t : MessageTree) (m : Msg)
    (m0 : Msg) (l : List String)
    (hstored : lookupA t.messages m.id = some m0)
    (hpar : m0.parent = m.parent)
    (hbucket : lookupP t.children m.parent = some l)
    (hmem : m.id ∈ l)
    (hsorted : l.Pairwise (· < ·)) :
    (t.add [m]).children = t.children ∧
    (t.add [m]).get m.id = some m := by
  have h1 : (t.addInsert m).children = t.children := by
    simp only [MessageTree.addInsert, hbucket, Option.getD_some, hmem,
      if_pos]
    exact setP_self _ _ _ hbucket
  have h2 : (t.addInsert m).messages = setA t.messages m.id m := rfl
  have hadd : t.add [m] = (t.addInsert m).sortStep m.parent := rfl
  have hsortllel : l.Sorted (· ≤ ·) := hsorted.imp (fun hab => le_of_lt hab)
  have h3 : (t.addInsert m).sortStep m.parent =
      { t.addInsert m with children := t.children } := by
    unfold MessageTree.sortStep
    rw [h1, hbucket]
    dsimp only
    rw [hsortllel.insertionSort_eq, setP_self _ _ _ hbucket]
  rw [hadd, h3]
  refine ⟨rfl, ?_⟩
  show lookupA (t.addInsert m).messages m.id = some m
  rw [h2, lookupA_setA]
  simp

/-- Witness for the amended claim C3: editing message `"1"` (same parent)
in a concrete tree leaves the children index unchanged and overwrites the
record. -/
theorem messageTree_readd_same_parent_witness :
    ((MessageTree.init.add [msgA]).add [msgEdit]).children =
      (MessageTree.init.add [msgA]).children ∧
    ((MessageTree.init.add [msgA]).add [msgEdit]).get "1" = some msgEdit :=
  messageTree_readd_same_parent (MessageTree.init.add [msgA]) msgEdit msgA
    ["1"] (by rfl) rfl (by rfl) (by decide) (by decide)

/-- Helper: either no entry carries the session id, or the backing list
splits at the first entry that does. -/
theorem splitAtSid (list : List SessionView) (k : String) :
    (∀ v ∈ list, v.session_id ≠ k) ∨
    ∃ l1 orig l2, list = l1 ++ orig :: l2 ∧ orig.session_id = k ∧
      (∀ v ∈ l1, v.session_id ≠ k) := by
  induction list with
  | nil => left; intro v hv; cases hv
  | cons w rest ih =>
    by_cases hw : w.session_id = k
    · right; exact ⟨[], w, rest, rfl, hw, by intro v hv; cases hv⟩
    · rcases ih with habs | ⟨l1, orig, l2, heq, horig, hl1⟩
      · left
        intro v hv
        rcases List.mem_cons.mp hv with rfl | hv'
        · exact hw
        · exact habs v hv'
      · right
        refine ⟨w :: l1, orig, l2, by rw [heq]; rfl, horig, ?_⟩
        intro v hv
        rcases List.mem_cons.mp hv with rfl | hv'
        · exact hw
        · exact hl1 v hv'

/-- Helper: popping an absent session id from the session index fails. -/
theorem popA_pair_none (list : List SessionView) (k : String)
    (h : ∀ v ∈ list, v.session_id ≠ k) :
    popA (list.map (fun v => (v.session_id, v))) k = none := by
  induction list with
  | nil => rfl
  | cons w rest ih =>
    simp only [List.map_cons, popA,
      if_neg (h w (List.mem_cons_self w rest))]
    rw [ih (fun v hv => h v (List.mem_cons_of_mem w hv))]

/-- Helper: popping a present session id returns its entry and the index
of the remaining entries. -/
theorem popA_pair_some (l1 : List SessionView) (orig : SessionView)
    (l2 : List SessionView) (k : String) (horig : orig.session_id = k)
    (h1 : ∀ v ∈ l1, v.session_id ≠ k) :
    popA ((l1 ++ orig :: l2).map (fun v => (v.session_id, v))) k =
      some (orig, (l1 ++ l2).map (fun v => (v.session_id, v))) := by
  induction l1 with
  | nil =>
    simp only [List.nil_append, List.map_cons, popA, if_pos horig]
  | cons w rest ih =>
    simp only [List.cons_append, List.map_cons, popA, List.append_eq,
      if_neg (h1 w (List.mem_cons_self w _))]
    rw [ih (fun v hv => h1 v (List.mem_cons_of_mem w hv))]

/-- Helper: `list.remove` drops exactly the marked occurrence when nothing
before it compares equal. -/
theorem removeFirst_append (l1 : List SessionView) (a : SessionView)
    (l2 : List SessionView) (h : ∀ b ∈ l1, b ≠ a) :
    removeFirst (l1 ++ a :: l2) a = some (l1 ++ l2) := by
  induction l1 with
  | nil => simp [removeFirst]
  | cons w rest ih =>
    simp only [List.cons_append, removeFirst, List.append_eq,
      if_neg (h w (List.mem_cons_self w _))]
    rw [ih (fun b hb => h b (List.mem_cons_of_mem w hb))]

/-- Helper: looking up an absent session id in the session index fails. -/
theorem lookupA_pair_none (list : List SessionView) (k : String)
    (h : ∀ v ∈ list, v.session_id ≠ k) :
    lookupA (list.map (fun v => (v.session_id, v))) k = none := by
  induction list with
  | nil => rfl
  | cons w rest ih =>
    simp only [List.map_cons, lookupA,
      if_neg (h w (List.mem_cons_self w rest))]
    exact ih (fun v hv => h v (List.mem_cons_of_mem w hv))

/-- Helper: a dict write under a fresh key appends the entry at the end. -/
theorem setA_absent {α : Type} (l : List (String × α)) (k : String) (v : α)
    (h : lookupA l k = none) : setA l k v = l ++ [(k, v)] := by
  induction l with
  | nil => rfl
  | cons hd tl ih =>
    obtain ⟨k1, w⟩ := hd
    by_cases h1 : k1 = k
    · subst h1
      simp [lookupA] at h
    · simp only [lookupA, if_neg h1] at h
      simp [setA, h1, ih h]

/-- Helper: bucket read after a bucket write. -/
theorem getBucket_setA (d : List (String × List SessionView)) (k k' : String)
    (b : List SessionView) :
    getBucket (setA d k b) k' = if k = k' then b else getBucket d k' := by
  simp only [getBucket, lookupA_setA]
  split <;> rfl

/-- Helper: the append half of `UserList.add` preserves the roster
invariant when the appended view's session id is fresh. -/
theorem appendView_inv (u : UserList) (i : SessionView) (h : RosterInv u)
    (hnotin : ∀ v ∈ u.list, v.session_id ≠ i.session_id) :
    RosterInv (u.appendView i) := by
  obtain ⟨hnd, hsid, hag, hnm⟩ := h
  refine ⟨?_, ?_, ?_, ?_⟩
  · show ((u.list ++ [i]).map (fun v => v.session_id)).Nodup
    simp only [List.map_append, List.map_cons, List.map_nil]
    rw [List.nodup_append]
    refine ⟨hnd, List.nodup_singleton _, ?_⟩
    intro a ha hb
    simp only [List.mem_singleton] at hb
    subst hb
    obtain ⟨v, hv, hva⟩ := List.mem_map.mp ha
    exact hnotin v hv hva
  · show setA u.by_session_id i.session_id i =
      (u.list ++ [i]).map (fun v => (v.session_id, v))
    rw [hsid, setA_absent _ _ _ (lookupA_pair_none _ _ hnotin),
      List.map_append]
    rfl
  · intro k
    show getBucket (setA u.by_agent_id i.id
        (getBucket u.by_agent_id i.id ++ [i])) k =
      (u.list ++ [i]).filter (fun v => v.id == k)
    rw [getBucket_setA, List.filter_append]
    by_cases hk : i.id = k
    · subst hk
      rw [if_pos rfl, hag]
      simp
    · rw [if_neg hk, hag k]
      have hf : List.filter (fun v => v.id == k) [i] = [] := by
        simp [List.filter, beq_eq_false_iff_ne.mpr hk]
      rw [hf, List.append_nil]
  · intro k
    show getBucket (setA u.by_name i.name
        (getBucket u.by_name i.name ++ [i])) k =
      (u.list ++ [i]).filter (fun v => v.name == k)
    rw [getBucket_setA, List.filter_append]
    by_cases hk : i.name = k
    · subst hk
      rw [if_pos rfl, hnm]
      simp
    · rw [if_neg hk, hnm k]
      have hf : List.filter (fun v => v.name == k) [i] = [] := by
        simp [List.filter, beq_eq_false_iff_ne.mpr hk]
      rw [hf, List.append_nil]

/-- Helper: with pairwise distinct session ids, no entry after the split
point shares the split entry's session id. -/
theorem sid_notin_l2 (l1 l2 : List SessionView) (orig : SessionView)
    (hnd : ((l1 ++ orig :: l2).map (fun v => v.session_id)).Nodup) :
    ∀ v ∈ l2, v.session_id ≠ orig.session_id := by
  rw [List.map_append, List.nodup_append, List.map_cons] at hnd
  have hno : orig.session_id ∉ l2.map (fun v => v.session_id) :=
    (List.nodup_cons.mp hnd.2.1).1
  intro v hv hve
  exact hno (hve ▸ List.mem_map_of_mem _ hv)

/-- Helper: removing one entry keeps the session ids pairwise distinct. -/
theorem nodup_shrink (l1 l2 : List SessionView) (orig : SessionView)
    (hnd : ((l1 ++ orig :: l2).map (fun v => v.session_id)).Nodup) :
    ((l1 ++ l2).map (fun v => v.session_id)).Nodup := by
  refine List.Nodup.sublist (List.Sublist.map _ ?_) hnd
  exact List.Sublist.append_left (List.sublist_cons_self orig l2) l1

/-- Helper: a bucket filter of the split backing list, when the removed
entry belongs to the bucket. -/
theorem filter_decomp (l1 l2 : List SessionView) (orig : SessionView)
    (p : SessionView → Bool) (hp : p orig = true) :
    (l1 ++ orig :: l2).filter p = l1.filter p ++ orig :: l2.filter p := by
  rw [List.filter_append, List.filter_cons, if_pos hp]

/-- Helper: removing the marked entry from its own bucket leaves the
bucket of the shrunk backing list. -/
theorem removeFirst_filter (l1 l2 : List SessionView) (orig : SessionView)
    (p : SessionView → Bool) (hp : p orig = true)
    (hne : ∀ v ∈ l1, v ≠ orig) :
    removeFirst ((l1 ++ orig :: l2).filter p) orig =
      some ((l1 ++ l2).filter p) := by
  rw [filter_decomp l1 l2 orig p hp,
    removeFirst_append _ _ _ (fun b hb => hne b (List.mem_of_mem_filter hb)),
    List.filter_append]

/-- Helper: a nonempty bucket is physically present in its index. -/
theorem lookupA_bucket (d : List (String × List SessionView)) (k : String)
    (b : List SessionView) (hb : getBucket d k = b) (hne : b ≠ []) :
    lookupA d k = some b := by
  cases hl : lookupA d k with
  | none => simp [getBucket, hl] at hb; exact absurd hb.symm (fun hh => hne hh.symm)
  | some c => simp [getBucket, hl] at hb; rw [hb]

/-- Helper: the removal half shared by `UserList.add` and
`UserList.remove`: every index access succeeds, and the shrunk state —
the entry dropped from the backing list, the session index, and both
secondary buckets — satisfies the roster invariant again. -/
theorem removeOrig_facts (u : UserList) (h : RosterInv u)
    (l1 l2 : List SessionView) (orig : SessionView)
    (heq : u.list = l1 ++ orig :: l2)
    (hl1 : ∀ v ∈ l1, v.session_id ≠ orig.session_id) :
    removeFirst u.list orig = some (l1 ++ l2) ∧
    lookupA u.by_agent_id orig.id =
      some (u.list.filter (fun v => v.id == orig.id)) ∧
    removeFirst (u.list.filter (fun v => v.id == orig.id)) orig =
      some ((l1 ++ l2).filter (fun v => v.id == orig.id)) ∧
    lookupA u.by_name orig.name =
      some (u.list.filter (fun v => v.name == orig.name)) ∧
    removeFirst (u.list.filter (fun v => v.name == orig.name)) orig =
      some ((l1 ++ l2).filter (fun v => v.name == orig.name)) ∧
    RosterInv { list := l1 ++ l2,
                by_session_id := (l1 ++ l2).map (fun v => (v.session_id, v)),
                by_agent_id := setA u.by_agent_id orig.id
                  ((l1 ++ l2).filter (fun v => v.id == orig.id)),
                by_name := setA u.by_name orig.name
                  ((l1 ++ l2).filter (fun v => v.name == orig.name)) } := by
  obtain ⟨hnd, hsid, hag, hnm⟩ := h
  have hvne : ∀ v ∈ l1, v ≠ orig := fun v hv hve => hl1 v hv (hve ▸ rfl)
  have horigmem : orig ∈ u.list := by rw [heq]; simp
  refine ⟨?_, ?_, ?_, ?_, ?_, ?_, ?_, ?_, ?_⟩
  · rw [heq]; exact removeFirst_append l1 orig l2 hvne
  · refine lookupA_bucket _ _ _ (hag orig.id) ?_
    intro hemp
    have : orig ∈ u.list.filter (fun v => v.id == orig.id) :=
      List.mem_filter.mpr ⟨horigmem, by simp⟩
    rw [hemp] at this
    cases this
  · rw [heq]; exact removeFirst_filter l1 l2 orig _ (by simp) hvne
  · refine lookupA_bucket _ _ _ (hnm orig.name) ?_
    intro hemp
    have : orig ∈ u.list.filter (fun v => v.name == orig.name) :=
      List.mem_filter.mpr ⟨horigmem, by simp⟩
    rw [hemp] at this
    cases this
  · rw [heq]; exact removeFirst_filter l1 l2 orig _ (by simp) hvne
  · show ((l1 ++ l2).map (fun v => v.session_id)).Nodup
    rw [heq] at hnd
    exact nodup_shrink l1 l2 orig hnd
  · rfl
  · intro k
    show getBucket (setA u.by_agent_id orig.id _) k = _
    rw [getBucket_setA]
    by_cases hk : orig.id = k
    · subst hk; rw [if_pos rfl]
    · rw [if_neg hk, hag k, heq, List.filter_append, List.filter_append,
        List.filter_cons, if_neg (by simp [beq_eq_false_iff_ne.mpr hk])]
  · intro k
    show getBucket (setA u.by_name orig.name _) k = _
    rw [getBucket_setA]
    by_cases hk : orig.name = k
    · subst hk; rw [if_pos rfl]
    · rw [if_neg hk, hnm k, heq, List.filter_append, List.filter_append,
        List.filter_cons, if_neg (by simp [beq_eq_false_iff_ne.mpr hk])]

/-- Helper: one `UserList.add` iteration never raises and preserves the
roster invariant. -/
theorem addOne_ok (u : UserList) (i : SessionView) (h : RosterInv u) :
    ∃ u', u.addOne i = .ok u' ∧ RosterInv u' := by
  obtain ⟨hnd, hsid, hag, hnm⟩ := h
  rcases splitAtSid u.list i.session_id with habs | ⟨l1, orig, l2, heq, horig, hl1⟩
  · have hpop : popA u.by_session_id i.session_id = none := by
      rw [hsid]; exact popA_pair_none _ _ habs
    refine ⟨_, ?_, appendView_inv u i ⟨hnd, hsid, hag, hnm⟩ habs⟩
    rw [UserList.addOne, hpop]
  · have hl1' : ∀ v ∈ l1, v.session_id ≠ orig.session_id := by
      rw [horig]; exact hl1
    have hpop : popA u.by_session_id i.session_id =
        some (orig, (l1 ++ l2).map (fun v => (v.session_id, v))) := by
      rw [hsid, heq]; exact popA_pair_some l1 orig l2 _ horig hl1
    obtain ⟨hrm, hlkag, hrmag, hlknm, hrmnm, hinv2⟩ :=
      removeOrig_facts u ⟨hnd, hsid, hag, hnm⟩ l1 l2 orig heq hl1'
    have hno2 : ∀ v ∈ l1 ++ l2, v.session_id ≠ i.session_id := by
      intro v hv
      rcases List.mem_append.mp hv with hv1 | hv2
      · exact hl1 v hv1
      · rw [heq] at hnd
        intro hve
        exact sid_notin_l2 l1 l2 orig hnd v hv2 (hve.trans horig.symm)
    refine ⟨_, ?_, appendView_inv _ i hinv2 hno2⟩
    rw [UserList.addOne]
    simp only [hpop, hrm, hlkag, hrmag, hlknm, hrmnm]

/-- Helper: one `UserList.remove` iteration never raises and preserves the
roster invariant. -/
theorem removeOne_ok (u : UserList) (i : SessionView) (h : RosterInv u) :
    ∃ u', u.removeOne i = .ok u' ∧ RosterInv u' := by
  obtain ⟨hnd, hsid, hag, hnm⟩ := h
  rcases splitAtSid u.list i.session_id with habs | ⟨l1, orig, l2, heq, horig, hl1⟩
  · have hpop : popA u.by_session_id i.session_id = none := by
      rw [hsid]; exact popA_pair_none _ _ habs
    refine ⟨u, ?_, ⟨hnd, hsid, hag, hnm⟩⟩
    rw [UserList.removeOne, hpop]
  · have hl1' : ∀ v ∈ l1, v.session_id ≠ orig.session_id := by
      rw [horig]; exact hl1
    have hpop : popA u.by_session_id i.session_id =
        some (orig, (l1 ++ l2).map (fun v => (v.session_id, v))) := by
      rw [hsid, heq]; exact popA_pair_some l1 orig l2 _ horig hl1
    obtain ⟨hrm, hlkag, hrmag, hlknm, hrmnm, hinv2⟩ :=
      removeOrig_facts u ⟨hnd, hsid, hag, hnm⟩ l1 l2 orig heq hl1'
    refine ⟨_, ?_, hinv2⟩
    rw [UserList.removeOne]
    simp only [hpop, hrm, hlkag, hrmag, hlknm, hrmnm]

/-- Helper: `UserList.add` of any batch never raises and preserves the
roster invariant. -/
theorem add_ok (lst : List SessionView) :
    ∀ u : UserList, RosterInv u →
      ∃ u', u.add lst = .ok u' ∧ RosterInv u' := by
  induction lst with
  | nil => exact fun u h => ⟨u, rfl, h⟩
  | cons i rest ih =>
    intro u h
    obtain ⟨u1, h1, hinv1⟩ := addOne_ok u i h
    obtain ⟨u2, h2, hinv2⟩ := ih u1 hinv1
    refine ⟨u2, ?_, hinv2⟩
    rw [UserList.add]
    simp only [h1, h2]

/-- Helper: `UserList.remove` of any batch never raises and preserves the
roster invariant. -/
theorem remove_ok (lst : List SessionView) :
    ∀ u : UserList, RosterInv u →
      ∃ u', u.remove lst = .ok u' ∧ RosterInv u' := by
  induction lst with
  | nil => exact fun u h => ⟨u, rfl, h⟩
  | cons i rest ih =>
    intro u h
    obtain ⟨u1, h1, hinv1⟩ := removeOne_ok u i h
    obtain ⟨u2, h2, hinv2⟩ := ih u1 hinv1
    refine ⟨u2, ?_, hinv2⟩
    rw [UserList.remove]
    simp only [h1, h2]

/-- Helper: a fresh roster satisfies the invariant. -/
theorem rosterInv_empty : RosterInv UserList.empty :=
  ⟨List.nodup_nil, rfl, fun _ => rfl, fun _ => rfl⟩

/-- Claim C1: every sequence of roster `add`/`remove` operations from the
empty roster runs without an escaping exception, and after each operation
at most one entry per `session_id` exists while every secondary index
bucket holds exactly the entries whose field equals the bucket key — no
orphaned and no duplicate index entries (the state after each prefix of
the sequence is itself reachable, so the invariant holds after every
operation). -/
theorem userlist_index_consistency (ops : List RosterOp) :
    ∃ u, runRosterOps UserList.empty ops = .ok u ∧ RosterInv u := by
  suffices hgen : ∀ (ops : List RosterOp) (u : UserList), RosterInv u →
      ∃ u', runRosterOps u ops = .ok u' ∧ RosterInv u' from
    hgen ops UserList.empty rosterInv_empty
  intro ops
  induction ops with
  | nil => exact fun u h => ⟨u, rfl, h⟩
  | cons op rest ih =>
    intro u h
    have hstep : ∃ u1, applyRosterOp u op = .ok u1 ∧ RosterInv u1 := by
      cases op with
      | addViews lst => exact add_ok lst u h
      | removeViews lst => exact remove_ok lst u h
    obtain ⟨u1, h1, hinv1⟩ := hstep
    obtain ⟨u2, h2, hinv2⟩ := ih u1 hinv1
    refine ⟨u2, ?_, hinv2⟩
    rw [runRosterOps]
    simp only [h1, h2]

end Basebot
